import Mathlib

/-!
Verification of `additions/camoucfg/MaskConfig.hpp` (namespace `MaskConfig`):
a process-wide configuration store sourced from the `CAMOU_CONFIG` /
`CAMOU_CONFIG_1..N` environment variables, with type-strict fault-tolerant
accessors built on a parsed JSON document.

The JSON text parser is the vendored `simdjson.h`, which is not part of the
sources under verification; per the specification it is a black box
"that yields a typed tree of null/bool/int/uint/double/string/array/object
values, or an error".  We embed that typed tree as the inductive `Json`
below, and the element accessors (`el.get(...)` in the C++ code) as
tag-strict projections out of it.  Double payloads are carried as exact
rationals: the code under verification never performs arithmetic on them,
it only passes them through, so exactness is faithful.

All accessors in `MaskConfig.hpp` read the once-parsed root document; we
embed that by passing the root `Json` value explicitly, and embed the
environment as a finite association list of name/value pairs.
-/

set_option autoImplicit false

namespace MaskConfig

/-- Modelled from the spec: the typed value tree produced by the external
JSON parsing library ("null/bool/int/uint/double/string/array/object").
`i64` is the signed-integer leaf, `u64` the unsigned-integer leaf and
`num` the double leaf; `obj` keeps fields in document order. -/
inductive Json where
  | null : Json
  | bool (b : Bool) : Json
  | i64 (i : Int) : Json
  | u64 (n : Nat) : Json
  | num (q : Rat) : Json
  | str (s : String) : Json
  | arr (xs : List Json) : Json
  | obj (fields : List (String × Json)) : Json

namespace Json

/-- Modelled from the spec: `el.is_null()` of the black-box parser tree. -/
def isNull : Json → Bool
  | .null => true
  | _ => false

/-- Modelled from the spec: `el.get(std::string_view)` — succeeds exactly
on a string-tagged value. -/
def getStr : Json → Option String
  | .str s => some s
  | _ => none

/-- Modelled from the spec: `el.get(bool)` — succeeds exactly on a
boolean-tagged value. -/
def getBool : Json → Option Bool
  | .bool b => some b
  | _ => none

/-- Modelled from the spec: `el.get(int64_t)` — succeeds exactly on a
signed-integer-tagged value of the typed tree. -/
def getI64 : Json → Option Int
  | .i64 i => some i
  | _ => none

/-- Modelled from the spec: `el.get(uint64_t)` — succeeds exactly on an
unsigned-integer-tagged value of the typed tree. -/
def getU64 : Json → Option Nat
  | .u64 n => some n
  | _ => none

/-- Modelled from the spec: `el.get(double)` — succeeds exactly on a
double-tagged value of the typed tree. -/
def getDouble : Json → Option Rat
  | .num q => some q
  | _ => none

/-- Modelled from the spec: `el.get(simdjson::dom::array)`. -/
def getArr : Json → Option (List Json)
  | .arr xs => some xs
  | _ => none

/-- Modelled from the spec: `el.get(simdjson::dom::object)`. -/
def getObj : Json → Option (List (String × Json))
  | .obj fields => some fields
  | _ => none

end Json

/-- Modelled from the spec: `obj.at_key(key)` — first field with the given
name, absent when no field matches. -/
def at_key : List (String × Json) → String → Option Json
  | [], _ => none
  | (k, v) :: rest, key => if k == key then some v else at_key rest key

/-- Root-object lookup shared by every accessor in `MaskConfig.hpp`:
`data.get(obj)` followed by `obj.at_key(key).get(el)`. -/
def rootLookup (root : Json) (key : String) : Option Json :=
  match root.getObj with
  | none => none
  | some obj => at_key obj key

/-- Embedding of `MaskConfig::GetString` (MaskConfig.hpp lines 110-121). -/
def GetString (root : Json) (key : String) : Option String :=
  match rootLookup root key with
  | none => none
  | some el => el.getStr

/-- The element loop of `MaskConfig::GetStringList` (lines 136-139): keep
exactly the elements on which the string decode succeeds. -/
def collectStrings : List Json → List String
  | [] => []
  | v :: vs =>
    match v.getStr with
    | some s => s :: collectStrings vs
    | none => collectStrings vs

/-- Embedding of `MaskConfig::GetStringList` (lines 123-141). -/
def GetStringList (root : Json) (key : String) : List String :=
  match rootLookup root key with
  | none => []
  | some el =>
    match el.getArr with
    | none => []
    | some xs => collectStrings xs

/-- The per-byte `std::tolower` of line 158, restricted to its C-locale
behavior: only ASCII capitals change. -/
def lowerChar (c : Char) : Char :=
  if 'A' ≤ c ∧ c ≤ 'Z' then Char.ofNat (c.toNat + 32) else c

/-- Lowercasing of one string (lines 156-159): the transform is applied
characterwise in place. -/
def lowerStr (s : String) : String := ⟨s.data.map lowerChar⟩

/-- The `GetStringListLower` cache (line 145): an association map from key
to the committed lowercased list. -/
def Cache := List (String × List String)

/-- Embedding of `cache.find(key)` on the embedded cache. -/
def cacheFind : List (String × List String) → String → Option (List String)
  | [], _ => none
  | (k, v) :: rest, key => if k == key then some v else cacheFind rest key

/-- Embedding of `MaskConfig::GetStringListLower` (lines 143-166), with the static cache
made an explicit argument and the updated cache returned alongside the
result.  The second `cacheFind` mirrors `cache.emplace`, which inserts only
if the key is still absent and otherwise returns the existing entry. -/
def GetStringListLower (root : Json) (cache : List (String × List String))
    (key : String) : List String × List (String × List String) :=
  match cacheFind cache key with
  | some v => (v, cache)
  | none =>
    let result := (GetStringList root key).map lowerStr
    match cacheFind cache key with
    | some v => (v, cache)
    | none => (result, (key, result) :: cache)

/-- Embedding of `MaskConfig::GetUintImpl<T>` (lines 168-191), with the target type's
`std::numeric_limits<T>::max()` passed as `tmax`. -/
def GetUintImpl (tmax : Nat) (root : Json) (key : String) : Option Nat :=
  match rootLookup root key with
  | none => none
  | some el =>
    match el.getU64 with
    | some u => if u > tmax then none else some u
    | none =>
      match el.getI64 with
      | some i =>
        if 0 ≤ i then (if i.toNat > tmax then none else some i.toNat)
        else none
      | none => none

/-- Embedding of `MaskConfig::GetUint64` (lines 193-195). -/
def GetUint64 (root : Json) (key : String) : Option Nat :=
  GetUintImpl (2 ^ 64 - 1) root key

/-- Embedding of `MaskConfig::GetUint32` (lines 197-199). -/
def GetUint32 (root : Json) (key : String) : Option Nat :=
  GetUintImpl (2 ^ 32 - 1) root key

/-- Embedding of `MaskConfig::GetInt32` (lines 201-213). -/
def GetInt32 (root : Json) (key : String) : Option Int :=
  match rootLookup root key with
  | none => none
  | some el =>
    match el.getI64 with
    | none => none
    | some v =>
      if v < -(2 ^ 31) ∨ v > 2 ^ 31 - 1 then none else some v

/-- Embedding of `MaskConfig::GetDouble` (lines 215-234): double first, then the
signed-integer and unsigned-integer fallbacks. -/
def GetDouble (root : Json) (key : String) : Option Rat :=
  match rootLookup root key with
  | none => none
  | some el =>
    match el.getDouble with
    | some d => some d
    | none =>
      match el.getI64 with
      | some i => some (i : Rat)
      | none =>
        match el.getU64 with
        | some u => some (u : Rat)
        | none => none

/-- Embedding of `MaskConfig::GetBool` (lines 236-247). -/
def GetBool (root : Json) (key : String) : Option Bool :=
  match rootLookup root key with
  | none => none
  | some el => el.getBool

/-- Embedding of `MaskConfig::CheckBool` (lines 249-251). -/
def CheckBool (root : Json) (key : String) : Bool :=
  (GetBool root key).getD false

/-- Embedding of `MaskConfig::GetRect` (lines 253-277), returning (left, top, width,
height). -/
def GetRect (root : Json) (left top width height : String) :
    Option (Nat × Nat × Nat × Nat) :=
  let leftOpt := GetUint32 root left
  let topOpt := GetUint32 root top
  match GetUint32 root width, GetUint32 root height with
  | some w, some h => some (leftOpt.getD 0, topOpt.getD 0, w, h)
  | _, _ => none

/-- The diagnostic condition of lines 261-265: `printf_stderr` fires
exactly when one of width/height resolved and the other did not. -/
def GetRectWarns (root : Json) (width height : String) : Bool :=
  (GetUint32 root width).isSome != (GetUint32 root height).isSome

/-- Embedding of `MaskConfig::GetNested` (lines 297-314): two-level lookup
root[domain][keyStr]. -/
def GetNested (root : Json) (domain keyStr : String) : Option Json :=
  match root.getObj with
  | none => none
  | some rootObj =>
    match at_key rootObj domain with
    | none => none
    | some domainEl =>
      match domainEl.getObj with
      | none => none
      | some domainObj => at_key domainObj keyStr

/-- The domain-name selection `isWebGL2 ? "webGl2:parameters"
: "webGl:parameters"` of lines 352-353 and 381-382 and 417-418. -/
def paramsDomain (isWebGL2 : Bool) : String :=
  if isWebGL2 then "webGl2:parameters" else "webGl:parameters"

/-- The tagged union `std::variant<int64_t, bool, double, std::string,
std::nullptr_t>` returned by `GLParam`. -/
inductive GLVariant where
  | i64 (i : Int) : GLVariant
  | bool (b : Bool) : GLVariant
  | num (q : Rat) : GLVariant
  | str (s : String) : GLVariant
  | null : GLVariant

/-- Embedding of `MaskConfig::GLParam` (lines 351-377): fixed-order decode attempts
null, string, double, int64, bool; the first success wins. -/
def GLParam (root : Json) (pname : Nat) (isWebGL2 : Bool) : Option GLVariant :=
  match GetNested root (paramsDomain isWebGL2) (toString pname) with
  | none => none
  | some el =>
    if el.isNull then some .null
    else
      match el.getStr with
      | some s => some (.str s)
      | none =>
        match el.getDouble with
        | some d => some (.num d)
        | none =>
          match el.getI64 with
          | some i => some (.i64 i)
          | none =>
            match el.getBool with
            | some b => some (.bool b)
            | none => none

/-- The element loop of `MParamGLVector` (lines 424-454): decode each
element with the type-directed decoder `dec`; the first failing element
aborts the whole decode. -/
def decodeAll {α : Type} (dec : Json → Option α) : List Json → Option (List α)
  | [] => some []
  | v :: vs =>
    match dec v with
    | none => none
    | some y =>
      match decodeAll dec vs with
      | none => none
      | some ys => some (y :: ys)

/-- Embedding of `MaskConfig::MParamGLVector<T>` (lines 413-455), generic over the
per-element decoder that the `if constexpr` ladder selects from `T`. -/
def MParamGLVector {α : Type} (dec : Json → Option α) (root : Json)
    (pname : Nat) (defaultValue : List α) (isWebGL2 : Bool) : List α :=
  match GetNested root (paramsDomain isWebGL2) (toString pname) with
  | none => defaultValue
  | some v =>
    match v.getArr with
    | none => defaultValue
    | some xs => (decodeAll dec xs).getD defaultValue

/-- The signed-integral element branch of lines 426-431, with the target
type's bounds passed explicitly. -/
def decodeSigned (tmin tmax : Int) (j : Json) : Option Int :=
  match j.getI64 with
  | none => none
  | some i => if i < tmin ∨ i > tmax then none else some i

/-- The unsigned-integral element branch of lines 432-437. -/
def decodeUnsigned (tmax : Nat) (j : Json) : Option Nat :=
  match j.getU64 with
  | none => none
  | some u => if u > tmax then none else some u

/-- The floating-point element branch of lines 438-441. -/
def decodeFloat (j : Json) : Option Rat :=
  j.getDouble

/-- The boolean element branch of lines 442-445. -/
def decodeBoolElem (j : Json) : Option Bool :=
  j.getBool

/-- The string element branch of lines 446-449. -/
def decodeStringElem (j : Json) : Option String :=
  j.getStr

/-- The voice tuple `std::tuple<std::string, std::string, std::string,
bool, bool>` of line 489: (lang, name, voiceUri, isDefault,
isLocalService). -/
def Voice := String × String × String × Bool × Bool

/-- One iteration of the `MVoices` loop body (lines 505-524): every
`continue` becomes a `none`. -/
def decodeVoice (j : Json) : Option Voice :=
  match j.getObj with
  | none => none
  | some vObj =>
    match at_key vObj "lang", at_key vObj "name", at_key vObj "voiceUri",
        at_key vObj "isDefault", at_key vObj "isLocalService" with
    | some langEl, some nameEl, some uriEl, some defEl, some localEl =>
      match langEl.getStr, nameEl.getStr, uriEl.getStr,
          defEl.getBool, localEl.getBool with
      | some lang, some name, some uri, some dflt, some loc =>
        some (lang, name, uri, dflt, loc)
      | _, _, _, _, _ => none
    | _, _, _, _, _ => none

/-- The `MVoices` array loop (lines 505-524): skipped entries leave no
trace, the rest appear in document order. -/
def collectVoices : List Json → List Voice
  | [] => []
  | v :: vs =>
    match decodeVoice v with
    | some voice => voice :: collectVoices vs
    | none => collectVoices vs

/-- Embedding of `MaskConfig::MVoices` (lines 488-527). -/
def MVoices (root : Json) : Option (List Voice) :=
  match root.getObj with
  | none => none
  | some rootObj =>
    match at_key rootObj "voices" with
    | none => none
    | some voicesEl =>
      match voicesEl.getArr with
      | none => none
      | some xs => some (collectVoices xs)

/-! ## Environment assembly (`GetJson`, lines 58-108)

The environment is embedded as a finite association list of variable
name/value pairs; `get_env_utf8` is lookup in it (the platform-specific
wide-character decoding of lines 33-49 is out of scope per the spec).
The `while` loop of lines 72-79 probes `CAMOU_CONFIG_1`, `CAMOU_CONFIG_2`,
… and stops at the first missing index; since an environment with `n`
entries holds at most `n` distinct names, `n + 1` probes always reach a
missing one, so the loop is embedded with that fuel. -/

/-- Embedding of `MaskConfig::get_env_utf8` (lines 32-55) over the embedded
environment. -/
def get_env_utf8 (env : List (String × String)) (name : String) :
    Option String :=
  match env with
  | [] => none
  | (k, v) :: rest => if k == name then some v else get_env_utf8 rest name

/-- The shard-collecting loop of lines 67-79, fuelled. -/
def collectShardsGo (env : List (String × String)) :
    Nat → Nat → List String
  | 0, _ => []
  | fuel + 1, i =>
    match get_env_utf8 env ("CAMOU_CONFIG_" ++ toString i) with
    | none => []
    | some piece => piece :: collectShardsGo env fuel (i + 1)

/-- The shards `CAMOU_CONFIG_1..N` gathered by lines 67-79. -/
def collectShards (env : List (String × String)) : List String :=
  collectShardsGo env (env.length + 1) 1

/-- The assembled configuration text of lines 67-89: the concatenated
shards, or — when that concatenation is empty — the single `CAMOU_CONFIG`
value (empty when that is also unset). -/
def assembleText (env : List (String × String)) : String :=
  let jsonString := String.join (collectShards env)
  if jsonString = "" then (get_env_utf8 env "CAMOU_CONFIG").getD ""
  else jsonString

/-- Embedding of `MaskConfig::GetJson` (lines 60-108) as a function of the black-box
parser and the environment: empty assembled text parses the literal `"{}"`
(the empty object, lines 91-95), and a parse error substitutes the empty
object as well (lines 99-104). -/
def GetJson (parse : String → Option Json)
    (env : List (String × String)) : Json :=
  let s := assembleText env
  if s = "" then .obj []
  else
    match parse s with
    | some root => root
    | none => .obj []

/-- Modelled from the spec: the external JSON parser (`simdjson.h`,
vendored with the repository but not among the sources under
verification) is a black box from text to the typed tree.  This concrete
stand-in decides only the closed documents used in witnesses and
counterexamples — the empty object and the literal `true` — and treats
every other text as unparsed; all general theorems quantify over the
parser instead. -/
def parseModel (s : String) : Option Json :=
  if s = "{}" then some (.obj [])
  else if s = "true" then some (.bool true)
  else none

/-- Coherence of the lowercase cache with the document: every committed
entry is the lowercased string list of its key.  The empty cache is
trivially coherent, and `GetStringListLower` preserves coherence. -/
def cacheCoherent (root : Json) (cache : List (String × List String)) : Prop :=
  ∀ k v, cacheFind cache k = some v → v = (GetStringList root k).map lowerStr

/-! ## Helper lemmas -/

theorem collectStrings_eq_filterMap (xs : List Json) :
    collectStrings xs = xs.filterMap Json.getStr := by
  induction xs with
  | nil => rfl
  | cons v vs ih =>
    cases hv : v.getStr <;> simp [collectStrings, hv, ih]

theorem collectVoices_eq_filterMap (xs : List Json) :
    collectVoices xs = xs.filterMap decodeVoice := by
  induction xs with
  | nil => rfl
  | cons v vs ih =>
    cases hv : decodeVoice v <;> simp [collectVoices, hv, ih]

theorem decodeAll_eq_none_of_mem {α : Type} (dec : Json → Option α)
    {xs : List Json} {j : Json} (hj : j ∈ xs) (hd : dec j = none) :
    decodeAll dec xs = none := by
  induction xs with
  | nil => cases hj
  | cons v vs ih =>
    rcases List.mem_cons.mp hj with h | h
    · subst h; simp [decodeAll, hd]
    · cases hv : dec v <;> simp [decodeAll, hv, ih h]

theorem decodeAll_eq_some_iff {α : Type} (dec : Json → Option α)
    (xs : List Json) (ys : List α) :
    decodeAll dec xs = some ys ↔ xs.map dec = ys.map some := by
  induction xs generalizing ys with
  | nil => cases ys <;> simp [decodeAll]
  | cons v vs ih =>
    cases hv : dec v with
    | none =>
      cases ys <;> simp [decodeAll, hv]
    | some y =>
      cases ys with
      | nil =>
        simp only [decodeAll, hv, List.map_cons, List.map_nil]
        cases hvs : decodeAll dec vs <;> simp
      | cons y' ys' =>
        simp only [decodeAll, hv, List.map_cons]
        cases hvs : decodeAll dec vs with
        | none =>
          constructor
          · intro h; cases h
          · intro h
            simp only [List.cons.injEq, Option.some.injEq] at h
            have hvs' := (ih ys').mpr h.2
            rw [hvs'] at hvs
            cases hvs
        | some zs =>
          have h1 := ih ys'
          rw [hvs] at h1
          simp only [Option.some.injEq] at h1
          simp only [Option.some.injEq, List.cons.injEq]
          exact and_congr Iff.rfl h1

theorem GetUintImpl_eq_some_iff (tmax : Nat) (root : Json) (key : String)
    (n : Nat) :
    GetUintImpl tmax root key = some n ↔
      ((rootLookup root key = some (.u64 n) ∨
        rootLookup root key = some (.i64 (n : Int))) ∧ n ≤ tmax) := by
  unfold GetUintImpl
  cases hr : rootLookup root key with
  | none => simp
  | some el =>
    cases el
    case u64 m =>
      simp only [Json.getU64]
      split_ifs with h <;> simp <;> omega
    case i64 i =>
      simp only [Json.getU64, Json.getI64]
      split_ifs with h1 h2 <;> simp <;> omega
    all_goals simp [Json.getU64, Json.getI64]

/-! ## Claim theorems -/

/-- Claim C1: `GLParam` attempts decodes in the fixed order null, string,
double, int64, bool and returns the first successful decode: a null value
yields the null variant, a string value the string variant, a
double-tagged value the double variant, a signed-integer value the int64
variant, and a boolean value the bool variant (reached only after all
prior forms failed to match). -/
theorem GLParam_fixed_decode_order (root : Json) (pname : Nat) (v2 : Bool) :
    (GetNested root (paramsDomain v2) (toString pname) = some .null →
      GLParam root pname v2 = some .null) ∧
    (∀ s, GetNested root (paramsDomain v2) (toString pname) = some (.str s) →
      GLParam root pname v2 = some (.str s)) ∧
    (∀ q, GetNested root (paramsDomain v2) (toString pname) = some (.num q) →
      GLParam root pname v2 = some (.num q)) ∧
    (∀ i, GetNested root (paramsDomain v2) (toString pname) = some (.i64 i) →
      GLParam root pname v2 = some (.i64 i)) ∧
    (∀ b, GetNested root (paramsDomain v2) (toString pname) = some (.bool b) →
      GLParam root pname v2 = some (.bool b)) := by
  refine ⟨fun h => ?_, fun s h => ?_, fun q h => ?_, fun i h => ?_,
    fun b h => ?_⟩ <;>
    simp [GLParam, h, Json.isNull, Json.getStr, Json.getDouble, Json.getI64,
      Json.getBool]

/-- Concrete check for C1: in a document whose `webGl:parameters` object
maps id 3 to the string `"5"`, id 4 to the double `5.0`, id 5 to the
integer `5`, id 6 to `true` and id 7 to `null`, the variants come out
string, double, int64, bool and null respectively. -/
theorem GLParam_fixed_decode_order_witness :
    GLParam (.obj [("webGl:parameters", .obj [("3", .str "5"),
      ("4", .num 5), ("5", .i64 5), ("6", .bool true), ("7", .null)])])
      3 false = some (.str "5") ∧
    GLParam (.obj [("webGl:parameters", .obj [("3", .str "5"),
      ("4", .num 5), ("5", .i64 5), ("6", .bool true), ("7", .null)])])
      4 false = some (.num 5) ∧
    GLParam (.obj [("webGl:parameters", .obj [("3", .str "5"),
      ("4", .num 5), ("5", .i64 5), ("6", .bool true), ("7", .null)])])
      5 false = some (.i64 5) ∧
    GLParam (.obj [("webGl:parameters", .obj [("3", .str "5"),
      ("4", .num 5), ("5", .i64 5), ("6", .bool true), ("7", .null)])])
      6 false = some (.bool true) ∧
    GLParam (.obj [("webGl:parameters", .obj [("3", .str "5"),
      ("4", .num 5), ("5", .i64 5), ("6", .bool true), ("7", .null)])])
      7 false = some .null := by
  refine ⟨?_, ?_, ?_, ?_, ?_⟩
  · exact (GLParam_fixed_decode_order _ 3 false).2.1 "5" rfl
  · exact (GLParam_fixed_decode_order _ 4 false).2.2.1 5 rfl
  · exact (GLParam_fixed_decode_order _ 5 false).2.2.2.1 5 rfl
  · exact (GLParam_fixed_decode_order _ 6 false).2.2.2.2 true rfl
  · exact (GLParam_fixed_decode_order _ 7 false).1 rfl

/-- Claim C3: the unsigned getters return `n` exactly when the key holds a
JSON integer — in unsigned or non-negative signed encoding — that fits the
target bit width; negative signed integers and strings (never coerced) give
absent. -/
theorem GetUint_bitwidth_strict (root : Json) (key : String) :
    (∀ n : Nat, GetUint32 root key = some n ↔
      ((rootLookup root key = some (.u64 n) ∨
        rootLookup root key = some (.i64 (n : Int))) ∧ n ≤ 2 ^ 32 - 1)) ∧
    (∀ n : Nat, GetUint64 root key = some n ↔
      ((rootLookup root key = some (.u64 n) ∨
        rootLookup root key = some (.i64 (n : Int))) ∧ n ≤ 2 ^ 64 - 1)) ∧
    (∀ i : Int, i < 0 → rootLookup root key = some (.i64 i) →
      GetUint32 root key = none ∧ GetUint64 root key = none) ∧
    (∀ s : String, rootLookup root key = some (.str s) →
      GetUint32 root key = none ∧ GetUint64 root key = none) := by
  refine ⟨fun n => GetUintImpl_eq_some_iff _ root key n,
    fun n => GetUintImpl_eq_some_iff _ root key n, ?_, ?_⟩
  · intro i hneg hr
    refine ⟨?_, ?_⟩ <;>
      simp [GetUint32, GetUint64, GetUintImpl, hr, Json.getU64, Json.getI64,
        show ¬ (0 ≤ i) from by omega]
  · intro s hr
    refine ⟨?_, ?_⟩ <;>
      simp [GetUint32, GetUint64, GetUintImpl, hr, Json.getU64, Json.getI64]

/-- Concrete check for C3: `get_uint32` on 4294967295 yields the value, on
4294967296 absent, and on the string `"5"` absent. -/
theorem GetUint_bitwidth_strict_witness :
    GetUint32 (.obj [("k", .i64 4294967295)]) "k" = some 4294967295 ∧
    GetUint32 (.obj [("k", .i64 4294967296)]) "k" = none ∧
    GetUint32 (.obj [("k", .str "5")]) "k" = none ∧
    GetUint64 (.obj [("k", .i64 4294967296)]) "k" = some 4294967296 := by
  refine ⟨?_, ?_, ?_, ?_⟩
  · exact ((GetUint_bitwidth_strict _ "k").1 4294967295).mpr
      ⟨Or.inr rfl, by norm_num⟩
  · decide
  · exact ((GetUint_bitwidth_strict (.obj [("k", .str "5")]) "k").2.2.2
      "5" rfl).1
  · exact ((GetUint_bitwidth_strict _ "k").2.1 4294967296).mpr
      ⟨Or.inr rfl, by norm_num⟩

/-- Claim C4: `GetRect` is absent (with no diagnostic) when neither of
width/height resolves as unsigned 32-bit, absent with a diagnostic when
exactly one resolves, and when both resolve it yields (left, top, width,
height) with left and top defaulting to 0 — so (0,0,w,h) when only width
and height are given and (l,t,w,h) when all four are. -/
theorem GetRect_width_height_gate (root : Json) (l t w h : String) :
    (GetUint32 root w = none → GetUint32 root h = none →
      GetRect root l t w h = none ∧ GetRectWarns root w h = false) ∧
    (∀ wv, GetUint32 root w = some wv → GetUint32 root h = none →
      GetRect root l t w h = none ∧ GetRectWarns root w h = true) ∧
    (∀ hv, GetUint32 root w = none → GetUint32 root h = some hv →
      GetRect root l t w h = none ∧ GetRectWarns root w h = true) ∧
    (∀ wv hv, GetUint32 root w = some wv → GetUint32 root h = some hv →
      GetRect root l t w h =
        some ((GetUint32 root l).getD 0, (GetUint32 root t).getD 0, wv, hv)) ∧
    (∀ wv hv, GetUint32 root l = none → GetUint32 root t = none →
      GetUint32 root w = some wv → GetUint32 root h = some hv →
      GetRect root l t w h = some (0, 0, wv, hv)) ∧
    (∀ lv tv wv hv, GetUint32 root l = some lv → GetUint32 root t = some tv →
      GetUint32 root w = some wv → GetUint32 root h = some hv →
      GetRect root l t w h = some (lv, tv, wv, hv)) := by
  refine ⟨fun hw hh => ?_, fun wv hw hh => ?_, fun hv hw hh => ?_,
    fun wv hv hw hh => ?_, fun wv hv hl ht hw hh => ?_,
    fun lv tv wv hv hl ht hw hh => ?_⟩ <;>
    simp [GetRect, GetRectWarns, hw, hh, *]

/-- Concrete check for C4: only width and height given yields (0,0,w,h),
all four given yields (l,t,w,h), and width alone yields absent with a
diagnostic. -/
theorem GetRect_width_height_gate_witness :
    GetRect (.obj [("w", .u64 5), ("h", .u64 6)]) "l" "t" "w" "h" =
      some (0, 0, 5, 6) ∧
    GetRect (.obj [("l", .u64 1), ("t", .u64 2), ("w", .u64 5),
      ("h", .u64 6)]) "l" "t" "w" "h" = some (1, 2, 5, 6) ∧
    (GetRect (.obj [("w", .u64 5)]) "l" "t" "w" "h" = none ∧
      GetRectWarns (.obj [("w", .u64 5)]) "w" "h" = true) := by
  refine ⟨?_, ?_, ?_⟩
  · exact (GetRect_width_height_gate _ "l" "t" "w" "h").2.2.2.2.1 5 6
      rfl rfl rfl rfl
  · exact (GetRect_width_height_gate _ "l" "t" "w" "h").2.2.2.2.2 1 2 5 6
      rfl rfl rfl rfl
  · exact (GetRect_width_height_gate _ "l" "t" "w" "h").2.1 5 rfl rfl

/-- Claim C10: on an array value, `GetStringList` keeps exactly the
string-decodable elements in their original order — it never fails the
whole list and never coerces a non-string element. -/
theorem GetStringList_keeps_only_strings (root : Json) (key : String)
    (xs : List Json) (hr : rootLookup root key = some (.arr xs)) :
    GetStringList root key = xs.filterMap Json.getStr := by
  simp [GetStringList, hr, Json.getArr, collectStrings_eq_filterMap]

/-- Concrete check for C10: a mixed array of strings and numbers yields
exactly the strings, in order. -/
theorem GetStringList_keeps_only_strings_witness :
    GetStringList (.obj [("k", .arr [.str "a", .i64 1, .str "b",
      .num 5, .bool true])]) "k" = ["a", "b"] := by
  have h := GetStringList_keeps_only_strings
    (.obj [("k", .arr [.str "a", .i64 1, .str "b", .num 5, .bool true])])
    "k" [.str "a", .i64 1, .str "b", .num 5, .bool true] rfl
  simpa [Json.getStr] using h

/-- Claim C6: `MParamGLVector` is all-or-nothing: it yields the fully
coerced element list exactly when the nested value is a JSON array whose
every element coerces, and yields the caller-supplied default when the
value is absent, not an array, or any single element fails to coerce —
never a partial list. -/
theorem MParamGLVector_all_or_nothing {α : Type} (dec : Json → Option α)
    (root : Json) (p : Nat) (v2 : Bool) (dflt : List α) :
    (GetNested root (paramsDomain v2) (toString p) = none →
      MParamGLVector dec root p dflt v2 = dflt) ∧
    (∀ v, GetNested root (paramsDomain v2) (toString p) = some v →
      v.getArr = none → MParamGLVector dec root p dflt v2 = dflt) ∧
    (∀ xs j, GetNested root (paramsDomain v2) (toString p) = some (.arr xs) →
      j ∈ xs → dec j = none → MParamGLVector dec root p dflt v2 = dflt) ∧
    (∀ xs ys, GetNested root (paramsDomain v2) (toString p) = some (.arr xs) →
      xs.map dec = ys.map some → MParamGLVector dec root p dflt v2 = ys) := by
  refine ⟨fun hn => ?_, fun v hn ha => ?_, fun xs j hn hj hd => ?_,
    fun xs ys hn hmap => ?_⟩
  · simp [MParamGLVector, hn]
  · simp [MParamGLVector, hn, ha]
  · simp [MParamGLVector, hn, Json.getArr,
      decodeAll_eq_none_of_mem dec hj hd]
  · simp [MParamGLVector, hn, Json.getArr,
      (decodeAll_eq_some_iff dec xs ys).mpr hmap]

/-- Concrete check for C6 with the signed 32-bit element decoder: the
array [1, 2] decodes to [1, 2], while [1, "x", 2] — one mistyped element —
and [1, 2147483648] — one out-of-range element — both collapse to the
caller's default [7]. -/
theorem MParamGLVector_all_or_nothing_witness :
    MParamGLVector (decodeSigned (-(2 ^ 31)) (2 ^ 31 - 1))
      (.obj [("webGl:parameters", .obj [("9", .arr [.i64 1, .i64 2])])])
      9 [7] false = [1, 2] ∧
    MParamGLVector (decodeSigned (-(2 ^ 31)) (2 ^ 31 - 1))
      (.obj [("webGl:parameters",
        .obj [("9", .arr [.i64 1, .str "x", .i64 2])])]) 9 [7] false = [7] ∧
    MParamGLVector (decodeSigned (-(2 ^ 31)) (2 ^ 31 - 1))
      (.obj [("webGl:parameters",
        .obj [("9", .arr [.i64 1, .i64 2147483648])])]) 9 [7] false = [7] := by
  refine ⟨?_, ?_, ?_⟩
  · exact (MParamGLVector_all_or_nothing
      (decodeSigned (-(2 ^ 31)) (2 ^ 31 - 1))
      (.obj [("webGl:parameters", .obj [("9", .arr [.i64 1, .i64 2])])])
      9 false [7]).2.2.2 [.i64 1, .i64 2] [1, 2] rfl (by decide)
  · exact (MParamGLVector_all_or_nothing
      (decodeSigned (-(2 ^ 31)) (2 ^ 31 - 1))
      (.obj [("webGl:parameters",
        .obj [("9", .arr [.i64 1, .str "x", .i64 2])])])
      9 false [7]).2.2.1 [.i64 1, .str "x", .i64 2] (.str "x") rfl
      (List.mem_cons_of_mem _ (List.mem_cons_self _ _)) (by decide)
  · exact (MParamGLVector_all_or_nothing
      (decodeSigned (-(2 ^ 31)) (2 ^ 31 - 1))
      (.obj [("webGl:parameters",
        .obj [("9", .arr [.i64 1, .i64 2147483648])])])
      9 false [7]).2.2.1 [.i64 1, .i64 2147483648] (.i64 2147483648) rfl
      (List.mem_cons_of_mem _ (List.mem_cons_self _ _)) (by decide)

/-- Claim C7: `MVoices` decodes the voices array per-entry best effort:
a malformed entry anywhere in the array is skipped and decoding continues,
returning the remaining well-formed entries in their original order. -/
theorem MVoices_skips_malformed (fields : List (String × Json))
    (a b : List Json) (m : Json)
    (hv : at_key fields "voices" = some (.arr (a ++ m :: b)))
    (hm : decodeVoice m = none) :
    MVoices (.obj fields) =
      some (a.filterMap decodeVoice ++ b.filterMap decodeVoice) := by
  simp [MVoices, Json.getObj, hv, Json.getArr, collectVoices_eq_filterMap,
    List.filterMap_append, List.filterMap_cons, hm]

/-- Concrete check for C7: an array of three entries whose second lacks
`lang` yields exactly the two well-formed entries, in order. -/
theorem MVoices_skips_malformed_witness :
    MVoices (.obj [("voices", .arr [
      .obj [("lang", .str "en"), ("name", .str "n1"),
        ("voiceUri", .str "u1"), ("isDefault", .bool true),
        ("isLocalService", .bool false)],
      .obj [("name", .str "n2"), ("voiceUri", .str "u2"),
        ("isDefault", .bool false), ("isLocalService", .bool false)],
      .obj [("lang", .str "fr"), ("name", .str "n3"),
        ("voiceUri", .str "u3"), ("isDefault", .bool false),
        ("isLocalService", .bool true)]])]) =
      some [("en", "n1", "u1", true, false),
        ("fr", "n3", "u3", false, true)] := by
  have h := MVoices_skips_malformed
    [("voices", .arr [
      .obj [("lang", .str "en"), ("name", .str "n1"),
        ("voiceUri", .str "u1"), ("isDefault", .bool true),
        ("isLocalService", .bool false)],
      .obj [("name", .str "n2"), ("voiceUri", .str "u2"),
        ("isDefault", .bool false), ("isLocalService", .bool false)],
      .obj [("lang", .str "fr"), ("name", .str "n3"),
        ("voiceUri", .str "u3"), ("isDefault", .bool false),
        ("isLocalService", .bool true)]])]
    [.obj [("lang", .str "en"), ("name", .str "n1"),
      ("voiceUri", .str "u1"), ("isDefault", .bool true),
      ("isLocalService", .bool false)]]
    [.obj [("lang", .str "fr"), ("name", .str "n3"),
      ("voiceUri", .str "u3"), ("isDefault", .bool false),
      ("isLocalService", .bool true)]]
    (.obj [("name", .str "n2"), ("voiceUri", .str "u2"),
      ("isDefault", .bool false), ("isLocalService", .bool false)])
    rfl rfl
  rw [h]
  rfl

/-- Claim C5: when the assembled configuration text is empty or fails to
parse, the document is the empty object, on which every typed accessor
returns absent (or its caller-supplied default) for any key. -/
theorem GetJson_failure_degrades (parse : String → Option Json)
    (env : List (String × String)) :
    (assembleText env = "" → GetJson parse env = .obj []) ∧
    (parse (assembleText env) = none → GetJson parse env = .obj []) ∧
    (∀ key, GetString (.obj []) key = none ∧ GetStringList (.obj []) key = [] ∧
      GetUint32 (.obj []) key = none ∧ GetUint64 (.obj []) key = none ∧
      GetInt32 (.obj []) key = none ∧ GetDouble (.obj []) key = none ∧
      GetBool (.obj []) key = none ∧ CheckBool (.obj []) key = false) ∧
    (∀ l t w h, GetRect (.obj []) l t w h = none) ∧
    (∀ d k, GetNested (.obj []) d k = none) ∧
    (∀ p v2, GLParam (.obj []) p v2 = none) ∧
    (∀ (α : Type) (dec : Json → Option α) (p : Nat) (dflt : List α)
      (v2 : Bool), MParamGLVector dec (.obj []) p dflt v2 = dflt) ∧
    MVoices (.obj []) = none := by
  refine ⟨fun he => ?_, fun hp => ?_, fun key => ?_, fun l t w h => ?_,
    fun d k => ?_, fun p v2 => ?_, fun α dec p dflt v2 => ?_, ?_⟩
  · simp [GetJson, he]
  · simp only [GetJson]
    split
    · rfl
    · simp [hp]
  · simp [GetString, GetStringList, GetUint32, GetUint64, GetUintImpl,
      GetInt32, GetDouble, GetBool, CheckBool, rootLookup, Json.getObj,
      at_key]
  · simp [GetRect, GetUint32, GetUintImpl, rootLookup, Json.getObj, at_key]
  · simp [GetNested, Json.getObj, at_key]
  · simp [GLParam, GetNested, Json.getObj, at_key]
  · simp [MParamGLVector, GetNested, Json.getObj, at_key]
  · simp [MVoices, Json.getObj, at_key]

/-- Concrete check for C5: an environment supplying the unparsable text
`oops` yields the empty-object document, and the accessors are absent on
it. -/
theorem GetJson_failure_degrades_witness :
    GetJson parseModel [("CAMOU_CONFIG", "oops")] = .obj [] ∧
    GetString (.obj []) "k" = none ∧
    GetUint32 (.obj []) "k" = none ∧
    MVoices (.obj []) = none := by
  refine ⟨?_, ?_, ?_, ?_⟩
  · exact (GetJson_failure_degrades parseModel
      [("CAMOU_CONFIG", "oops")]).2.1 rfl
  · exact ((GetJson_failure_degrades parseModel
      [("CAMOU_CONFIG", "oops")]).2.2.1 "k").1
  · exact ((GetJson_failure_degrades parseModel
      [("CAMOU_CONFIG", "oops")]).2.2.1 "k").2.2.1
  · exact (GetJson_failure_degrades parseModel
      [("CAMOU_CONFIG", "oops")]).2.2.2.2.2.2.2

/-- Claim C8: `GetStringListLower` returns `GetStringList` with every
ASCII capital lowercased (absent key or non-array value giving the empty
list), it keeps the cache coherent, and a repeated call with the same key
returns the identical content — the first committed entry is never
overwritten. -/
theorem GetStringListLower_lowercase_stable (root : Json)
    (cache : List (String × List String)) (key : String)
    (hc : cacheCoherent root cache) :
    (GetStringListLower root cache key).1 =
      (GetStringList root key).map lowerStr ∧
    cacheCoherent root (GetStringListLower root cache key).2 ∧
    (GetStringListLower root (GetStringListLower root cache key).2 key).1 =
      (GetStringListLower root cache key).1 ∧
    (rootLookup root key = none → GetStringList root key = []) ∧
    (∀ v, rootLookup root key = some v → v.getArr = none →
      GetStringList root key = []) := by
  have hlist : (rootLookup root key = none → GetStringList root key = []) ∧
      (∀ v, rootLookup root key = some v → v.getArr = none →
        GetStringList root key = []) := by
    constructor
    · intro h; simp [GetStringList, h]
    · intro v h ha; simp [GetStringList, h, ha]
  cases hf : cacheFind cache key with
  | some v =>
    have hv := hc key v hf
    refine ⟨?_, ?_, ?_, hlist.1, hlist.2⟩
    · simp [GetStringListLower, hf, hv]
    · simpa [GetStringListLower, hf] using hc
    · simp [GetStringListLower, hf]
  | none =>
    have hfst : (GetStringListLower root cache key).1 =
        (GetStringList root key).map lowerStr := by
      simp [GetStringListLower, hf]
    have hsnd : (GetStringListLower root cache key).2 =
        (key, (GetStringList root key).map lowerStr) :: cache := by
      simp [GetStringListLower, hf]
    refine ⟨hfst, ?_, ?_, hlist.1, hlist.2⟩
    · rw [hsnd]
      intro k v hkv
      by_cases hk : key = k
      · subst hk
        simp [cacheFind] at hkv
        exact hkv.symm
      · simp only [cacheFind] at hkv
        rw [if_neg (by simpa using hk)] at hkv
        exact hc k v hkv
    · rw [hsnd, hfst]
      simp [GetStringListLower, cacheFind]

/-- Concrete check for C8: starting from the empty (trivially coherent)
cache, the list ["AbC", "XY-z"] comes back as ["abc", "xy-z"], and a
second call through the updated cache returns the same content. -/
theorem GetStringListLower_lowercase_stable_witness :
    (GetStringListLower (.obj [("k", .arr [.str "AbC", .str "XY-z"])])
      [] "k").1 = ["abc", "xy-z"] ∧
    (GetStringListLower (.obj [("k", .arr [.str "AbC", .str "XY-z"])])
      (GetStringListLower (.obj [("k", .arr [.str "AbC", .str "XY-z"])])
        [] "k").2 "k").1 =
      (GetStringListLower (.obj [("k", .arr [.str "AbC", .str "XY-z"])])
        [] "k").1 := by
  have h := GetStringListLower_lowercase_stable
    (.obj [("k", .arr [.str "AbC", .str "XY-z"])]) [] "k"
    (fun k v hkv => by simp [cacheFind] at hkv)
  exact ⟨h.1.trans (by decide), h.2.2.1⟩

/-- Evaluation of the assembler on an environment holding only the single
unindexed variable: no indexed shard is found, so the fallback returns the
single value in full. -/
theorem assembleText_single (s : String) :
    assembleText [("CAMOU_CONFIG", s)] = s := rfl

/-- Counterexample to C2 as stated: in the environment
`CAMOU_CONFIG_1=""`, `CAMOU_CONFIG="true"` an indexed variant exists, yet
the single-blob text decides the document (the shard concatenation is
empty, so line 85 falls through to `CAMOU_CONFIG`); dropping the single
blob changes the document, so the indexed form does not fully supersede
it. -/
theorem GetJson_supersede_cex :
    collectShards [("CAMOU_CONFIG_1", ""), ("CAMOU_CONFIG", "true")] =
      [""] ∧
    GetJson parseModel [("CAMOU_CONFIG_1", ""), ("CAMOU_CONFIG", "true")] =
      .bool true ∧
    GetJson parseModel [("CAMOU_CONFIG_1", "")] = .obj [] :=
  ⟨rfl, rfl, rfl⟩

/-- Claim C2 (amended): concatenating the shards `CAMOU_CONFIG_1..N`
(stopping at the first missing index, no separator) yields the same parsed
document as supplying the same text under the single unindexed
`CAMOU_CONFIG`, and the indexed variants supersede the single-blob form
exactly when their concatenation is nonempty; when it is empty (in
particular when no indexed variant exists) the unindexed input is used in
full. -/
theorem GetJson_shard_assembly (parse : String → Option Json)
    (env : List (String × String)) :
    (String.join (collectShards env) ≠ "" →
      GetJson parse env =
        GetJson parse [("CAMOU_CONFIG", String.join (collectShards env))]) ∧
    (String.join (collectShards env) = "" →
      GetJson parse env =
        GetJson parse
          ((get_env_utf8 env "CAMOU_CONFIG").elim []
            (fun s => [("CAMOU_CONFIG", s)]))) := by
  constructor
  · intro h
    have h1 : assembleText env = String.join (collectShards env) := by
      simp [assembleText, h]
    have h2 : assembleText
        [("CAMOU_CONFIG", String.join (collectShards env))] =
        String.join (collectShards env) := assembleText_single _
    simp [GetJson, h1, h2]
  · intro h
    cases hs : get_env_utf8 env "CAMOU_CONFIG" with
    | none =>
      have h1 : assembleText env = "" := by simp [assembleText, h, hs]
      have h2 : assembleText [] = "" := rfl
      simp [GetJson, h1, h2]
    | some s =>
      have h1 : assembleText env = s := by simp [assembleText, h, hs]
      have h2 : assembleText [("CAMOU_CONFIG", s)] = s :=
        assembleText_single s
      simp [GetJson, h1, h2]

/-- Concrete check for the amended C2: the text `{}` split into the two
shards holding the brace characters produces the same document as the single unindexed
`{}` — the empty object. -/
theorem GetJson_shard_assembly_witness :
    GetJson parseModel [("CAMOU_CONFIG_1", "\x7b"), ("CAMOU_CONFIG_2", "\x7d")] =
      .obj [] ∧
    GetJson parseModel [("CAMOU_CONFIG", "{}")] = .obj [] := by
  have h := (GetJson_shard_assembly parseModel
    [("CAMOU_CONFIG_1", "\x7b"), ("CAMOU_CONFIG_2", "\x7d")]).1 (by decide)
  exact ⟨h.trans rfl, rfl⟩

end MaskConfig
